import Mathlib

/-!
Verification development for the LightRAG workspace subsystem
(`lightrag/api/workspaces.py`).

The Python module is shallowly embedded:

* Python strings are Lean `String`s; `str.strip()` and `str.split(",")`
  are re-implemented by structural recursion over `String.data` so that
  all definitions evaluate inside the kernel.
* Python truthiness of `Optional[str]` values (`None` and `""` are falsy)
  is made explicit via `truthyOptStr` / `pyOrStr`.
* The `contextvars.ContextVar` used for the ambient current-workspace
  slot is modelled as an explicit single-slot state (`ContextVar`) with
  `set` returning a `ResetToken` carrying the previous value, exactly as
  `ContextVar.set`/`ContextVar.reset` behave for one execution context.
* The async generator dependency `_apply` is modelled as a pure function
  from the registry, the requested id, the ambient slot and the
  downstream handler's outcome (normal return, raised exception, or
  cancellation) to the scope's result, the yielded context and the final
  slot value; the `try/finally` reset is applied on every exit path.
* `HTTPException(status_code, detail)` and `RuntimeError(msg)` become
  explicit error values of `Except` results.
* Python's insertion-ordered `dict` backing the registry becomes an
  association list in which an existing key is updated in place.
* `shutdown_all` returns an explicit trace: the ids on which
  `rag.finalize_storages()` was invoked, in iteration order, and the
  logged failures; a `Rag` handle carries the outcome of awaiting its
  `finalize_storages()`.
-/

/-- `str.split(",")`: cut a character list at every comma, keeping empty
pieces (Python semantics: `"".split(",") == [""]`, `",".split(",") == ["", ""]`). -/
def splitCommaAux : List Char → List Char → List (List Char)
  | [], acc => [acc.reverse]
  | c :: rest, acc =>
    if c = ',' then acc.reverse :: splitCommaAux rest [] else splitCommaAux rest (c :: acc)

/-- Python `raw.split(",")` on Lean strings. -/
def pysplit_comma (s : String) : List String :=
  (splitCommaAux s.data []).map (fun l => ⟨l⟩)

/-- Python `s.strip()`: drop whitespace from both ends. -/
def pystrip (s : String) : String :=
  ⟨((s.data.dropWhile Char.isWhitespace).reverse.dropWhile Char.isWhitespace).reverse⟩

/-- Python truthiness of an `Optional[str]`: `None` and `""` are falsy. -/
def truthyOptStr : Option String → Bool
  | none => false
  | some s => !(s == "")

/-- Python `a or b` for `a : Optional[str]`, `b : str`. -/
def pyOrStr : Option String → String → String
  | none, b => b
  | some s, b => if s == "" then b else s

/-- A single-quote character, used in the HTTP error details. -/
def squot : String := String.singleton (Char.ofNat 39)

/-- Detail string of the 404 raised for an unknown workspace id:
`f"Workspace '{workspace_id}' not found"`. -/
def notFoundDetail (workspace_id : String) : String :=
  "Workspace " ++ squot ++ workspace_id ++ squot ++ " not found"

/-- Detail string of the 404 raised for a disabled workspace:
`f"Workspace '{workspace_id}' is disabled"`. -/
def disabledDetail (workspace_id : String) : String :=
  "Workspace " ++ squot ++ workspace_id ++ squot ++ " is disabled"

/-- `WorkspaceConfig`: static configuration for a workspace.  Metadata is a
passthrough ordered string-keyed mapping; its values are never interpreted,
so they are modelled as strings. -/
structure WorkspaceConfig where
  id : String
  display_name : Option String := none
  description : Option String := none
  enabled : Bool := true
  metadata : List (String × String) := []
deriving Repr, DecidableEq

deriving instance DecidableEq for Except

/-- The opaque LightRAG engine handle: all this module ever does with it is
await `rag.finalize_storages()`, so the handle carries that call's outcome
(`.ok ()` for success, `.error msg` for a raised exception). -/
structure Rag where
  finalize_storages : Except String Unit
deriving Repr, DecidableEq

/-- `WorkspaceContext`: runtime objects associated with a workspace. -/
structure WorkspaceContext where
  config : WorkspaceConfig
  rag : Rag
  document_manager : String
  initialized : Bool := false
  error : Option String := none
deriving Repr, DecidableEq

/-- Convenience accessor `ctx.id` (the `id` property). -/
def WorkspaceContext.id (ctx : WorkspaceContext) : String :=
  ctx.config.id

/-- The shape of the dictionary returned by `WorkspaceContext.as_dict`. -/
structure WorkspaceSummary where
  id : String
  display_name : String
  description : Option String
  enabled : Bool
  error : Option String
  metadata : List (String × String)
deriving Repr, DecidableEq

/-- `WorkspaceContext.as_dict`: serialize minimal workspace metadata.
`display_name` is `self.config.display_name or self.config.id` (Python `or`,
so an empty display name also falls back to the id); `enabled` is
`self.config.enabled and self.error is None`. -/
def WorkspaceContext.as_dict (ctx : WorkspaceContext) : WorkspaceSummary :=
  { id := ctx.config.id
    display_name := pyOrStr ctx.config.display_name ctx.config.id
    description := ctx.config.description
    enabled := ctx.config.enabled && ctx.error.isNone
    error := ctx.error
    metadata := ctx.config.metadata }

/-- The ambient current-workspace slot of one execution context
(`_current_workspace : ContextVar[WorkspaceContext | None]`, default `None`). -/
structure ContextVar where
  value : Option WorkspaceContext
deriving Repr, DecidableEq

/-- The token returned by `ContextVar.set`, remembering the previous value. -/
structure ResetToken where
  old_value : Option WorkspaceContext
deriving Repr, DecidableEq

/-- `_current_workspace.set(ctx)`: returns the reset token and the updated slot. -/
def ContextVar.set (cv : ContextVar) (ctx : WorkspaceContext) : ResetToken × ContextVar :=
  (⟨cv.value⟩, ⟨some ctx⟩)

/-- `_current_workspace.reset(token)`: restore the value saved in the token. -/
def ContextVar.reset (_cv : ContextVar) (t : ResetToken) : ContextVar :=
  ⟨t.old_value⟩

/-- `fastapi.HTTPException(status_code=..., detail=...)`. -/
structure HTTPException where
  status_code : Nat
  detail : String
deriving Repr, DecidableEq

/-- `RuntimeError(msg)`. -/
structure RuntimeError where
  msg : String
deriving Repr, DecidableEq

/-- How the downstream request handler exits while the scope is bound:
it may complete normally, raise, or be cancelled.  The dependency's
`finally` block runs in every one of these cases. -/
inductive HandlerOutcome where
  | success
  | raised (msg : String)
  | cancelled
deriving Repr, DecidableEq

/-- `WorkspaceRegistry`: in-memory registry for workspace contexts, backed by
an insertion-ordered `Dict[str, WorkspaceContext]`. -/
structure WorkspaceRegistry where
  contexts : List (String × WorkspaceContext)
deriving Repr, DecidableEq

/-- `WorkspaceRegistry()`: empty registry. -/
def WorkspaceRegistry.empty : WorkspaceRegistry :=
  ⟨[]⟩

/-- Python `dict` assignment `d[k] = v`: update the first (for a real dict,
the only) binding of `k` in place, else append at the end. -/
def dictSet : List (String × WorkspaceContext) → String → WorkspaceContext →
    List (String × WorkspaceContext)
  | [], k, v => [(k, v)]
  | p :: rest, k, v => if p.1 = k then (k, v) :: rest else p :: dictSet rest k v

/-- Python `d.get(k)`: first binding of `k`, if any. -/
def dictGet : List (String × WorkspaceContext) → String → Option WorkspaceContext
  | [], _ => none
  | p :: rest, k => if p.1 = k then some p.2 else dictGet rest k

/-- `register(ctx)`: insert or replace the entry for `ctx.id` (an existing
entry is overridden with only a logged warning; nothing is raised). -/
def WorkspaceRegistry.register (reg : WorkspaceRegistry) (ctx : WorkspaceContext) :
    WorkspaceRegistry :=
  ⟨dictSet reg.contexts ctx.id ctx⟩

/-- `get(workspace_id)`: pure lookup. -/
def WorkspaceRegistry.get (reg : WorkspaceRegistry) (workspace_id : String) :
    Option WorkspaceContext :=
  dictGet reg.contexts workspace_id

/-- `list()`: all registered contexts in insertion order. -/
def WorkspaceRegistry.list (reg : WorkspaceRegistry) : List WorkspaceContext :=
  reg.contexts.map Prod.snd

/-- A registry reached from `WorkspaceRegistry()` by a sequence of
`register` calls. -/
def ofRegisters (l : List WorkspaceContext) : WorkspaceRegistry :=
  l.foldl WorkspaceRegistry.register WorkspaceRegistry.empty

/-- Result of one run of the dependency `_apply` scope: the outcome
surfaced to the framework (an `HTTPException` or the handler's own exit),
the context yielded to the handler (if validation passed), and the final
value of the ambient slot after the scope exited. -/
structure ScopeRun where
  result : Except HTTPException HandlerOutcome
  yielded : Option WorkspaceContext
  final_var : ContextVar
deriving Repr, DecidableEq

/-- The dependency `_apply(workspace_id)` produced by
`WorkspaceRegistry.dependency()`: resolve the id, raise 404 for an unknown
id, raise 404 for a disabled (`not ctx.config.enabled`) or truthy-errored
(`ctx.error` non-empty) context with `detail = ctx.error or` the generic
disabled message, otherwise set the ambient slot, yield the context to the
handler, and reset the slot in the `finally` block on every exit path. -/
def WorkspaceRegistry.dependency_apply (reg : WorkspaceRegistry) (workspace_id : String)
    (var : ContextVar) (handler : WorkspaceContext → HandlerOutcome) : ScopeRun :=
  match reg.get workspace_id with
  | none =>
    ⟨Except.error ⟨404, notFoundDetail workspace_id⟩, none, var⟩
  | some ctx =>
    if !ctx.config.enabled || truthyOptStr ctx.error then
      ⟨Except.error ⟨404, pyOrStr ctx.error (disabledDetail workspace_id)⟩, none, var⟩
    else
      let tv := var.set ctx
      let outcome := handler ctx
      ⟨Except.ok outcome, some ctx, ContextVar.reset tv.2 tv.1⟩

/-- Trace of a `shutdown_all` run: the workspace ids on which
`rag.finalize_storages()` was invoked, in iteration order (one entry per
invocation), and the `(id, message)` pairs logged for failed finalizes. -/
structure ShutdownTrace where
  finalized : List String
  errors : List (String × String)
deriving Repr, DecidableEq

/-- The `shutdown_all` loop body over a list of contexts: finalize every
initialized context; a raised exception is caught and logged, and the sweep
continues with the remaining contexts. -/
def shutdownSweep : List WorkspaceContext → ShutdownTrace
  | [] => ⟨[], []⟩
  | ctx :: rest =>
    let tail := shutdownSweep rest
    if ctx.initialized then
      match ctx.rag.finalize_storages with
      | Except.ok _ => ⟨ctx.id :: tail.finalized, tail.errors⟩
      | Except.error e => ⟨ctx.id :: tail.finalized, (ctx.id, e) :: tail.errors⟩
    else tail

/-- `shutdown_all()`: call `finalize_storages` for all initialized
workspaces; never raises (the trace is returned, not an exception). -/
def WorkspaceRegistry.shutdown_all (reg : WorkspaceRegistry) : ShutdownTrace :=
  shutdownSweep reg.list

/-- `get_current_workspace()`: read the ambient slot; raise `RuntimeError`
(not an `HTTPException`) when it is unset. -/
def get_current_workspace (var : ContextVar) : Except RuntimeError WorkspaceContext :=
  match var.value with
  | none => Except.error ⟨"Workspace context not found in the current request scope"⟩
  | some ctx => Except.ok ctx

/-- `_parse_workspace_ids(raw_ids)`: split on commas, strip each piece,
keep the truthy (non-empty) ones, in input order. -/
def parse_workspace_ids (raw_ids : String) : List String :=
  ((pysplit_comma raw_ids).map pystrip).filter (fun s => !(s == ""))

/-- The command-line arguments object; only `args.workspace` is read. -/
structure Args where
  workspace : Option String := none
deriving Repr, DecidableEq

/-- The process environment; only `WORKSPACES` and `WORKSPACE` are read.
`none` models an unset variable. -/
structure Env where
  WORKSPACES : Option String := none
  WORKSPACE : Option String := none
deriving Repr, DecidableEq

/-- The `# Ensure unique ids` loop of `load_workspace_configs`: keep the
first config for each id, drop (with a logged warning) later duplicates. -/
def ensure_unique_go (seen : List String) : List WorkspaceConfig → List WorkspaceConfig
  | [] => []
  | cfg :: rest =>
    if seen.contains cfg.id then ensure_unique_go seen rest
    else cfg :: ensure_unique_go (cfg.id :: seen) rest

/-- Deduplicate configs by id, first occurrence wins. -/
def ensure_unique (configs : List WorkspaceConfig) : List WorkspaceConfig :=
  ensure_unique_go [] configs

/-- `load_workspace_configs(args)`: derive workspace configurations from the
environment.  `WORKSPACES`, when truthy, is parsed into one minimal config
per id; when that yields nothing (unset, empty, or only blanks/commas), a
single id is taken from `args.workspace or os.getenv("WORKSPACE", "")`,
stripped, defaulting to `"default"`; finally ids are deduplicated. -/
def load_workspace_configs (env : Env) (args : Args) : List WorkspaceConfig :=
  let env_value := env.WORKSPACES
  let parsed : List WorkspaceConfig :=
    if truthyOptStr env_value then
      (parse_workspace_ids (env_value.getD "")).map (fun workspace_id => { id := workspace_id })
    else []
  let configs :=
    if parsed.isEmpty then
      let fallback := pyOrStr args.workspace (env.WORKSPACE.getD "")
      let workspace_id := if pystrip fallback == "" then "default" else pystrip fallback
      [({ id := workspace_id } : WorkspaceConfig)]
    else parsed
  ensure_unique configs

/-! ## Registry lemmas -/

/-- After a dict update, looking up the updated key finds the new value. -/
theorem dictGet_dictSet_self (m : List (String × WorkspaceContext)) (k : String)
    (v : WorkspaceContext) : dictGet (dictSet m k v) k = some v := by
  induction m with
  | nil => simp [dictSet, dictGet]
  | cons p rest ih =>
    by_cases h : p.1 = k
    · simp [dictSet, dictGet, h]
    · simp [dictSet, dictGet, h, ih]

/-- Keys after a dict update: unchanged when the key was present, else the
key is appended. -/
theorem keys_dictSet (m : List (String × WorkspaceContext)) (k : String) (v : WorkspaceContext) :
    (dictSet m k v).map Prod.fst =
      if k ∈ m.map Prod.fst then m.map Prod.fst else m.map Prod.fst ++ [k] := by
  induction m with
  | nil => simp [dictSet]
  | cons p rest ih =>
    by_cases h : p.1 = k
    · simp [dictSet, h]
    · have hne : k ≠ p.1 := fun hh => h hh.symm
      by_cases hk : k ∈ rest.map Prod.fst
      · simp [dictSet, h, ih, hk, hne]
      · simp [dictSet, h, ih, hk, hne]

/-- Every entry of an updated dict is the new binding or an old entry. -/
theorem mem_dictSet {m : List (String × WorkspaceContext)} {k : String}
    {v : WorkspaceContext} {p : String × WorkspaceContext} (h : p ∈ dictSet m k v) :
    p = (k, v) ∨ p ∈ m := by
  induction m with
  | nil => simpa [dictSet] using h
  | cons q rest ih =>
    by_cases hq : q.1 = k
    · rw [dictSet, if_pos hq] at h
      rcases List.mem_cons.1 h with h1 | h1
      · exact Or.inl h1
      · exact Or.inr (List.mem_cons_of_mem _ h1)
    · rw [dictSet, if_neg hq] at h
      rcases List.mem_cons.1 h with h1 | h1
      · exact Or.inr (h1 ▸ List.mem_cons_self _ _)
      · rcases ih h1 with h2 | h2
        · exact Or.inl h2
        · exact Or.inr (List.mem_cons_of_mem _ h2)

/-- A successful dict lookup returns a stored entry. -/
theorem dictGet_eq_some_mem {m : List (String × WorkspaceContext)} {k : String}
    {v : WorkspaceContext} (h : dictGet m k = some v) : (k, v) ∈ m := by
  induction m with
  | nil => simp [dictGet] at h
  | cons p rest ih =>
    by_cases hp : p.1 = k
    · rw [dictGet, if_pos hp] at h
      have : p = (k, v) := Prod.ext_iff.2 ⟨hp, Option.some.inj h⟩
      exact this ▸ List.mem_cons_self _ _
    · rw [dictGet, if_neg hp] at h
      exact List.mem_cons_of_mem _ (ih h)

/-- With duplicate-free keys, a stored entry is found by lookup. -/
theorem dictGet_of_mem_nodup {m : List (String × WorkspaceContext)} {k : String}
    {v : WorkspaceContext} (hn : (m.map Prod.fst).Nodup) (h : (k, v) ∈ m) :
    dictGet m k = some v := by
  induction m with
  | nil => simp at h
  | cons p rest ih =>
    rw [List.map_cons] at hn
    have hn2 := List.nodup_cons.1 hn
    rcases List.mem_cons.1 h with h1 | h1
    · rw [← h1, dictGet, if_pos rfl]
    · have hp : p.1 ≠ k := by
        intro he
        exact hn2.1 (he ▸ (List.mem_map_of_mem Prod.fst h1))
      rw [dictGet, if_neg hp]
      exact ih hn2.2 h1

/-- If a key is absent, no entry matches it. -/
theorem countP_key_eq_zero {m : List (String × WorkspaceContext)} {k : String}
    (h : k ∉ m.map Prod.fst) : m.countP (fun p => p.1 == k) = 0 := by
  rw [List.countP_eq_zero]
  intro p hp
  simp only [beq_iff_eq]
  intro he
  exact h (he ▸ List.mem_map_of_mem Prod.fst hp)

/-- With duplicate-free keys, a dict update leaves exactly one entry whose
key is the updated one. -/
theorem countP_key_dictSet {m : List (String × WorkspaceContext)} (k : String)
    (v : WorkspaceContext) (hn : (m.map Prod.fst).Nodup) :
    (dictSet m k v).countP (fun p => p.1 == k) = 1 := by
  induction m with
  | nil => simp [dictSet]
  | cons p rest ih =>
    rw [List.map_cons] at hn
    have hn2 := List.nodup_cons.1 hn
    by_cases hp : p.1 = k
    · rw [dictSet, if_pos hp]
      rw [List.countP_cons]
      have h0 : rest.countP (fun q => q.1 == k) = 0 :=
        countP_key_eq_zero (hp ▸ hn2.1)
      simp [h0]
    · rw [dictSet, if_neg hp]
      rw [List.countP_cons]
      simp [hp, ih hn2.2]

/-- The registry invariant: keys are duplicate-free and every entry is
stored under its own context's id. -/
def RegistryWF (reg : WorkspaceRegistry) : Prop :=
  (reg.contexts.map Prod.fst).Nodup ∧ ∀ p ∈ reg.contexts, p.1 = p.2.id

/-- register preserves the registry invariant. -/
theorem register_WF {reg : WorkspaceRegistry} {ctx : WorkspaceContext}
    (h : RegistryWF reg) : RegistryWF (reg.register ctx) := by
  obtain ⟨hn, hc⟩ := h
  constructor
  · show ((dictSet reg.contexts ctx.id ctx).map Prod.fst).Nodup
    rw [keys_dictSet]
    by_cases hk : ctx.id ∈ reg.contexts.map Prod.fst
    · simpa [hk] using hn
    · simp [hk, List.nodup_append, hn]
  · intro p hp
    rcases mem_dictSet hp with h1 | h1
    · rw [h1]
    · exact hc p h1

/-- Any registry reached by a sequence of register calls satisfies the
invariant. -/
theorem foldl_register_WF (l : List WorkspaceContext) (reg : WorkspaceRegistry)
    (h : RegistryWF reg) : RegistryWF (l.foldl WorkspaceRegistry.register reg) := by
  induction l generalizing reg with
  | nil => simpa using h
  | cons c rest ih =>
    rw [List.foldl_cons]
    exact ih _ (register_WF h)

/-- ofRegisters always produces a well-formed registry. -/
theorem ofRegisters_WF (l : List WorkspaceContext) : RegistryWF (ofRegisters l) :=
  foldl_register_WF l WorkspaceRegistry.empty ⟨List.nodup_nil, by simp [WorkspaceRegistry.empty]⟩

/-! ## Claim C4: last-write-wins registration -/

/-- C4: for every sequence of register calls, registering a context (in
particular one whose id is already present) replaces the existing entry
without raising: afterwards the registry holds exactly one entry for that id,
and get returns the most recently registered context. -/
theorem register_last_write_wins (l : List WorkspaceContext) (ctx : WorkspaceContext) :
    ((ofRegisters l).register ctx).contexts.countP (fun p => p.1 == ctx.id) = 1 ∧
      ((ofRegisters l).register ctx).get ctx.id = some ctx :=
  ⟨countP_key_dictSet ctx.id ctx (ofRegisters_WF l).1, dictGet_dictSet_self _ _ _⟩

/-! ## Claim C10: registry key consistency -/

/-- C10: after any sequence of register calls, every stored entry's map key
equals the stored context's config.id, get returns either none or a context
whose id equals the queried id, and list() enumerates only contexts that are
retrievable under their own id. -/
theorem registry_key_consistency (l : List WorkspaceContext) :
    (∀ p ∈ (ofRegisters l).contexts, p.1 = p.2.id) ∧
      (∀ workspace_id ctx, (ofRegisters l).get workspace_id = some ctx →
        ctx.id = workspace_id) ∧
      (∀ ctx ∈ (ofRegisters l).list, (ofRegisters l).get ctx.id = some ctx) := by
  obtain ⟨hn, hc⟩ := ofRegisters_WF l
  refine ⟨hc, ?_, ?_⟩
  · intro workspace_id ctx hget
    exact (hc _ (dictGet_eq_some_mem hget)).symm
  · intro ctx hctx
    rw [WorkspaceRegistry.list] at hctx
    obtain ⟨p, hp, hpe⟩ := List.mem_map.1 hctx
    have hid := hc p hp
    have hmem : (ctx.id, ctx) ∈ (ofRegisters l).contexts := by
      have hpeq : p = (ctx.id, ctx) := Prod.ext_iff.2 ⟨by rw [hid, hpe], hpe⟩
      exact hpeq ▸ hp
    exact dictGet_of_mem_nodup hn hmem

/-- A successfully finalizing engine handle, for concrete examples. -/
def ragOK : Rag := ⟨Except.ok ()⟩

/-- A plain registered workspace context with id "w10". -/
def ctxW10 : WorkspaceContext :=
  { config := { id := "w10" }, rag := ragOK, document_manager := "dm10" }

/-- Witness for C10 at a concrete one-entry registry. -/
theorem registry_key_consistency_witness : WorkspaceContext.id ctxW10 = "w10" :=
  (registry_key_consistency [ctxW10]).2.1 "w10" ctxW10 (by decide)

/-! ## Claim C5: guaranteed slot restoration -/

/-- C5: for every exit of the dependency scope (handler success, raised
exception, or cancellation, and also on validation failure), the ambient
current-workspace slot ends with exactly the value it held before the scope:
none when there was no outer binding, the outer context when nested. -/
theorem dependency_apply_restores_slot (reg : WorkspaceRegistry) (workspace_id : String)
    (var : ContextVar) (handler : WorkspaceContext → HandlerOutcome) :
    (reg.dependency_apply workspace_id var handler).final_var = var := by
  cases hg : reg.get workspace_id with
  | none => simp [WorkspaceRegistry.dependency_apply, hg]
  | some ctx =>
    by_cases h : (!ctx.config.enabled || truthyOptStr ctx.error) = true
    · simp [WorkspaceRegistry.dependency_apply, hg, h]
    · simp [WorkspaceRegistry.dependency_apply, hg, h, ContextVar.reset, ContextVar.set]

/-! ## Claim C7: accessor contract -/

/-- C7: when the ambient slot is unset, get_current_workspace fails with a
RuntimeError (a programmer-contract violation, not an HTTPException); when a
scope is bound, it returns the bound context. -/
theorem get_current_workspace_contract (var : ContextVar) :
    (var.value = none →
      get_current_workspace var =
        Except.error ⟨"Workspace context not found in the current request scope"⟩) ∧
      ∀ ctx, var.value = some ctx → get_current_workspace var = Except.ok ctx := by
  constructor
  · intro h
    simp [get_current_workspace, h]
  · intro ctx h
    simp [get_current_workspace, h]

/-- Witness for C7 at the unset slot. -/
theorem get_current_workspace_contract_witness :
    get_current_workspace ⟨none⟩ =
      Except.error ⟨"Workspace context not found in the current request scope"⟩ :=
  (get_current_workspace_contract ⟨none⟩).1 rfl

/-! ## Dependency validation lemmas -/

/-- The dependency on an unknown id raises 404 not-found and leaves the slot
untouched. -/
theorem dependency_apply_get_none {reg : WorkspaceRegistry} {workspace_id : String}
    (var : ContextVar) (handler : WorkspaceContext → HandlerOutcome)
    (h : reg.get workspace_id = none) :
    reg.dependency_apply workspace_id var handler =
      ⟨Except.error ⟨404, notFoundDetail workspace_id⟩, none, var⟩ := by
  simp [WorkspaceRegistry.dependency_apply, h]

/-- The dependency on a context with a non-empty error raises 404 carrying the
error text verbatim, regardless of the enabled flag. -/
theorem dependency_apply_nonempty_error {reg : WorkspaceRegistry} {workspace_id : String}
    {ctx : WorkspaceContext} {s : String}
    (var : ContextVar) (handler : WorkspaceContext → HandlerOutcome)
    (hget : reg.get workspace_id = some ctx) (hs : ctx.error = some s) (hne : s ≠ "") :
    reg.dependency_apply workspace_id var handler =
      ⟨Except.error ⟨404, s⟩, none, var⟩ := by
  have hb : (s == "") = false := by simpa using hne
  simp [WorkspaceRegistry.dependency_apply, hget, hs, truthyOptStr, hb, pyOrStr]

/-- The dependency on a disabled context with a blank (absent or empty) error
raises 404 carrying the generic disabled message. -/
theorem dependency_apply_disabled {reg : WorkspaceRegistry} {workspace_id : String}
    {ctx : WorkspaceContext}
    (var : ContextVar) (handler : WorkspaceContext → HandlerOutcome)
    (hget : reg.get workspace_id = some ctx) (hd : ctx.config.enabled = false)
    (hb : ctx.error = none ∨ ctx.error = some "") :
    reg.dependency_apply workspace_id var handler =
      ⟨Except.error ⟨404, disabledDetail workspace_id⟩, none, var⟩ := by
  rcases hb with hb | hb <;>
    simp [WorkspaceRegistry.dependency_apply, hget, hd, pyOrStr, hb]

/-- The dependency on an enabled context with a blank (absent or empty) error
binds: the context is yielded to the handler and the slot ends where it
started. -/
theorem dependency_apply_ok {reg : WorkspaceRegistry} {workspace_id : String}
    {ctx : WorkspaceContext}
    (var : ContextVar) (handler : WorkspaceContext → HandlerOutcome)
    (hget : reg.get workspace_id = some ctx) (he : ctx.config.enabled = true)
    (hb : ctx.error = none ∨ ctx.error = some "") :
    reg.dependency_apply workspace_id var handler =
      ⟨Except.ok (handler ctx), some ctx, var⟩ := by
  obtain ⟨v⟩ := var
  have ht : truthyOptStr ctx.error = false := by
    rcases hb with hb | hb <;> simp [truthyOptStr, hb]
  simp [WorkspaceRegistry.dependency_apply, hget, he, ht, ContextVar.set, ContextVar.reset]

/-! ## Claim C1: request-time binding validation -/

/-- An enabled context whose error is the empty string, id "c1a". -/
def ctxC1a : WorkspaceContext :=
  { config := { id := "c1a" }, rag := ragOK, document_manager := "dma", error := some "" }

/-- A disabled configuration, id "c1b". -/
def cfgC1b : WorkspaceConfig := { id := "c1b", enabled := false }

/-- A disabled context whose error is the empty string. -/
def ctxC1b : WorkspaceContext :=
  { config := cfgC1b, rag := ragOK, document_manager := "dmb", error := some "" }

/-- A concrete registry holding the two contexts above. -/
def regC1 : WorkspaceRegistry := ofRegisters [ctxC1a, ctxC1b]

/-- C1 counterexample: the claim as stated fails on empty-string errors.
An enabled context whose error is set to the empty string binds successfully
instead of failing with 404, and a disabled context whose error is set to the
empty string surfaces the generic disabled message, not the error text
verbatim. -/
theorem dependency_apply_counterexample :
    ctxC1a.error = some "" ∧
      (regC1.dependency_apply "c1a" ⟨none⟩ (fun _ => HandlerOutcome.success)).result =
        Except.ok HandlerOutcome.success ∧
      ctxC1b.error = some "" ∧
      (regC1.dependency_apply "c1b" ⟨none⟩ (fun _ => HandlerOutcome.success)).result =
        Except.error ⟨404, disabledDetail "c1b"⟩ ∧
      disabledDetail "c1b" ≠ "" := by decide

/-- C1 (amended): for every binding attempt via the dependency: an unknown id
fails with a 404 not-found condition; a context that is disabled or whose
error is a non-empty string also fails with a 404 whose message is the error
text verbatim when a non-empty error is present and the generic disabled
message otherwise (also when the error is the empty string); only otherwise
is the context bound and yielded to the handler. -/
theorem dependency_apply_validation (l : List WorkspaceContext) (workspace_id : String)
    (var : ContextVar) (handler : WorkspaceContext → HandlerOutcome) :
    ((ofRegisters l).get workspace_id = none →
      (ofRegisters l).dependency_apply workspace_id var handler =
        ⟨Except.error ⟨404, notFoundDetail workspace_id⟩, none, var⟩) ∧
      ∀ ctx, (ofRegisters l).get workspace_id = some ctx →
        (∀ s, ctx.error = some s → s ≠ "" →
          (ofRegisters l).dependency_apply workspace_id var handler =
            ⟨Except.error ⟨404, s⟩, none, var⟩) ∧
        (ctx.config.enabled = false → (ctx.error = none ∨ ctx.error = some "") →
          (ofRegisters l).dependency_apply workspace_id var handler =
            ⟨Except.error ⟨404, disabledDetail workspace_id⟩, none, var⟩) ∧
        (ctx.config.enabled = true → (ctx.error = none ∨ ctx.error = some "") →
          (ofRegisters l).dependency_apply workspace_id var handler =
            ⟨Except.ok (handler ctx), some ctx, var⟩) := by
  refine ⟨dependency_apply_get_none var handler, ?_⟩
  intro ctx hget
  exact ⟨fun s hs hne => dependency_apply_nonempty_error var handler hget hs hne,
    fun hd hb => dependency_apply_disabled var handler hget hd hb,
    fun he hb => dependency_apply_ok var handler hget he hb⟩

/-- Witness for C1 at an unknown id against a concrete registry. -/
theorem dependency_apply_validation_witness :
    regC1.dependency_apply "nope" ⟨none⟩ (fun _ => HandlerOutcome.success) =
      ⟨Except.error ⟨404, notFoundDetail "nope"⟩, none, ⟨none⟩⟩ :=
  (dependency_apply_validation [ctxC1a, ctxC1b] "nope" ⟨none⟩
    (fun _ => HandlerOutcome.success)).1 (by decide)

/-! ## Claim C8: errored contexts are unavailable -/

/-- An enabled context whose error is the empty string, id "c8". -/
def ctxC8 : WorkspaceContext :=
  { config := { id := "c8" }, rag := ragOK, document_manager := "dm8", error := some "" }

/-- C8 counterexample: a context whose error field holds a string value (the
empty string) rather than None is not treated as unavailable: binding to its
id succeeds and yields the context. -/
theorem error_set_binding_counterexample :
    ctxC8.error = some "" ∧ ctxC8.config.enabled = true ∧
      (ofRegisters [ctxC8]).dependency_apply "c8" ⟨none⟩ (fun _ => HandlerOutcome.success) =
        ⟨Except.ok HandlerOutcome.success, some ctxC8, ⟨none⟩⟩ := by decide

/-- C8 (amended): every context whose error field holds a non-empty string is
treated as unavailable at request-binding time regardless of its enabled
flag: binding to its id fails with the 404 not-found condition and nothing is
yielded. -/
theorem nonempty_error_unavailable (l : List WorkspaceContext) (workspace_id : String)
    (var : ContextVar) (handler : WorkspaceContext → HandlerOutcome)
    (ctx : WorkspaceContext) (s : String)
    (hget : (ofRegisters l).get workspace_id = some ctx)
    (hs : ctx.error = some s) (hne : s ≠ "") :
    ((ofRegisters l).dependency_apply workspace_id var handler).result =
        Except.error ⟨404, s⟩ ∧
      ((ofRegisters l).dependency_apply workspace_id var handler).yielded = none := by
  rw [dependency_apply_nonempty_error var handler hget hs hne]
  exact ⟨rfl, rfl⟩

/-- A context with a non-empty error, id "c8b". -/
def ctxC8b : WorkspaceContext :=
  { config := { id := "c8b" }, rag := ragOK, document_manager := "dm8b", error := some "boom" }

/-- Witness for C8 at a concrete errored context. -/
theorem nonempty_error_unavailable_witness :
    ((ofRegisters [ctxC8b]).dependency_apply "c8b" ⟨none⟩
        (fun _ => HandlerOutcome.success)).result = Except.error ⟨404, "boom"⟩ :=
  (nonempty_error_unavailable [ctxC8b] "c8b" ⟨none⟩ (fun _ => HandlerOutcome.success)
    ctxC8b "boom" (by decide) rfl (by decide)).1

/-! ## Claim C9: serializable summary -/

/-- A configuration with an empty display name, id "w9". -/
def cfgW9 : WorkspaceConfig := { id := "w9", display_name := some "" }

/-- A context over cfgW9. -/
def ctxW9 : WorkspaceContext := { config := cfgW9, rag := ragOK, document_manager := "dm9" }

/-- C9 counterexample: the claim as stated fails when display_name is present
but empty: as_dict then exposes the id ("w9"), not the configured
display_name value (""). -/
theorem as_dict_display_name_counterexample :
    ctxW9.config.display_name = some "" ∧
      ctxW9.as_dict.display_name = "w9" ∧ ("w9" : String) ≠ "" := by decide

/-- C9 (amended): as_dict exposes the config's id; a display_name equal to
config.display_name when that is present and non-empty, and equal to the id
otherwise (absent or empty); the config's description; an enabled flag that
is the logical AND of config.enabled and the absence of an error; and the
raw error and metadata values unchanged. -/
theorem as_dict_fields (ctx : WorkspaceContext) :
    ctx.as_dict.id = ctx.config.id ∧
      (∀ s, ctx.config.display_name = some s → s ≠ "" → ctx.as_dict.display_name = s) ∧
      ((ctx.config.display_name = none ∨ ctx.config.display_name = some "") →
        ctx.as_dict.display_name = ctx.config.id) ∧
      ctx.as_dict.description = ctx.config.description ∧
      (ctx.as_dict.enabled = true ↔ (ctx.config.enabled = true ∧ ctx.error = none)) ∧
      ctx.as_dict.error = ctx.error ∧
      ctx.as_dict.metadata = ctx.config.metadata := by
  refine ⟨rfl, ?_, ?_, rfl, ?_, rfl, rfl⟩
  · intro s hs hne
    have hb : (s == "") = false := by simpa using hne
    simp [WorkspaceContext.as_dict, pyOrStr, hs, hb]
  · rintro (h | h) <;> simp [WorkspaceContext.as_dict, pyOrStr, h]
  · simp [WorkspaceContext.as_dict, Option.isNone_iff_eq_none]

/-- A configuration with a non-empty display name, id "w9b". -/
def cfgW9b : WorkspaceConfig := { id := "w9b", display_name := some "Nine" }

/-- A context over cfgW9b. -/
def ctxW9b : WorkspaceContext := { config := cfgW9b, rag := ragOK, document_manager := "dm9b" }

/-- Witness for C9 at a concrete context with a non-empty display name. -/
theorem as_dict_fields_witness : ctxW9b.as_dict.display_name = "Nine" :=
  (as_dict_fields ctxW9b).2.1 "Nine" rfl (by decide)

/-! ## Claim C6: shutdown sweep -/

/-- The finalize trace covers exactly the initialized contexts, in order,
independent of which finalize calls fail. -/
theorem sweep_finalized_eq (L : List WorkspaceContext) :
    (shutdownSweep L).finalized =
      (L.filter (fun c => c.initialized)).map WorkspaceContext.id := by
  induction L with
  | nil => rfl
  | cons c rest ih =>
    by_cases h : c.initialized = true
    · cases hf : c.rag.finalize_storages with
      | ok u => simp [shutdownSweep, h, hf, ih]
      | error e => simp [shutdownSweep, h, hf, ih]
    · simp [shutdownSweep, h, ih]

/-- Every initialized context whose finalize fails gets its failure logged. -/
theorem sweep_errors_mem (L : List WorkspaceContext) (ctx : WorkspaceContext) (e : String)
    (hmem : ctx ∈ L) (hinit : ctx.initialized = true)
    (hf : ctx.rag.finalize_storages = Except.error e) :
    (ctx.id, e) ∈ (shutdownSweep L).errors := by
  induction L with
  | nil => cases hmem
  | cons c rest ih =>
    rcases List.mem_cons.1 hmem with rfl | hm
    · simp [shutdownSweep, hinit, hf]
    · have hrec := ih hm
      by_cases h : c.initialized = true
      · cases hff : c.rag.finalize_storages with
        | ok u => simpa [shutdownSweep, h, hff] using hrec
        | error e2 =>
          simp only [shutdownSweep, h, hff, if_pos]
          exact List.mem_cons_of_mem _ hrec
      · simpa [shutdownSweep, h] using hrec

/-- With duplicate-free ids, a member context's id appears in the filtered
id list exactly once when initialized and not at all otherwise. -/
theorem count_id_filter (L : List WorkspaceContext) (ctx : WorkspaceContext)
    (hn : (L.map WorkspaceContext.id).Nodup) (hm : ctx ∈ L) :
    ((L.filter (fun c => c.initialized)).map WorkspaceContext.id).count ctx.id =
      if ctx.initialized then 1 else 0 := by
  induction L with
  | nil => cases hm
  | cons c rest ih =>
    rw [List.map_cons] at hn
    have hn2 := List.nodup_cons.1 hn
    rcases List.mem_cons.1 hm with rfl | hm2
    · have h0 : ((rest.filter (fun c => c.initialized)).map WorkspaceContext.id).count ctx.id
          = 0 := by
        rw [List.count_eq_zero]
        intro hmm
        obtain ⟨c2, hc2, he⟩ := List.mem_map.1 hmm
        exact hn2.1 (he ▸ List.mem_map_of_mem _ (List.mem_of_mem_filter hc2))
      by_cases h : ctx.initialized = true
      · simp [h, List.filter_cons, List.count_cons, h0]
      · simp [h, List.filter_cons, h0]
    · have hne2 : (ctx.id == c.id) = false := by
        simp only [beq_eq_false_iff_ne, ne_eq]
        intro he
        exact hn2.1 (he ▸ List.mem_map_of_mem _ hm2)
      have hcc : ¬c.id = ctx.id := by
        intro he
        apply hn2.1
        rw [he]
        exact List.mem_map_of_mem _ hm2
      by_cases h : c.initialized = true
      · rw [List.filter_cons_of_pos (by simp [h]), List.map_cons, List.count_cons]
        simp [hne2, hcc, ih hn2.2 hm2]
      · rw [List.filter_cons_of_neg (by simp [h])]
        exact ih hn2.2 hm2

/-- Under key consistency, listing values and reading their ids retraces the
keys. -/
theorem map_id_comp_snd (m : List (String × WorkspaceContext))
    (hc : ∀ p ∈ m, p.1 = p.2.id) :
    m.map (WorkspaceContext.id ∘ Prod.snd) = m.map Prod.fst := by
  induction m with
  | nil => rfl
  | cons p rest ih =>
    rw [List.map_cons, List.map_cons, ih (fun q hq => hc q (List.mem_cons_of_mem _ hq))]
    congr 1
    exact (hc p (List.mem_cons_self _ _)).symm

/-- C6: shutdown_all invokes finalize exactly once per registered context
whose initialized flag is true and never for an uninitialized one; a failure
in one context's finalize is logged and does not prevent the remaining
finalizes (the invocation trace equals the filtered registry list regardless
of outcomes), and the call returns a trace rather than raising. -/
theorem shutdown_all_complete_sweep (l : List WorkspaceContext) :
    ((ofRegisters l).shutdown_all).finalized =
        (((ofRegisters l).list).filter (fun c => c.initialized)).map WorkspaceContext.id ∧
      (∀ ctx ∈ (ofRegisters l).list,
        ((ofRegisters l).shutdown_all).finalized.count (WorkspaceContext.id ctx) =
          if ctx.initialized then 1 else 0) ∧
      (∀ ctx ∈ (ofRegisters l).list, ∀ e, ctx.initialized = true →
        ctx.rag.finalize_storages = Except.error e →
        (WorkspaceContext.id ctx, e) ∈ ((ofRegisters l).shutdown_all).errors) := by
  obtain ⟨hn, hc⟩ := ofRegisters_WF l
  have hids : ((ofRegisters l).list.map WorkspaceContext.id).Nodup := by
    rw [WorkspaceRegistry.list, List.map_map, map_id_comp_snd _ hc]
    exact hn
  refine ⟨sweep_finalized_eq _, ?_, ?_⟩
  · intro ctx hm
    rw [WorkspaceRegistry.shutdown_all, sweep_finalized_eq]
    exact count_id_filter _ ctx hids hm
  · intro ctx hm e hinit hf
    exact sweep_errors_mem _ ctx e hm hinit hf

/-- An engine handle whose finalize raises. -/
def ragBoom : Rag := ⟨Except.error "boom"⟩

/-- Initialized workspace "wa" with a healthy engine. -/
def wsA : WorkspaceContext :=
  { config := { id := "wa" }, rag := ragOK, document_manager := "da", initialized := true }

/-- Initialized workspace "wb" whose finalize raises. -/
def wsB : WorkspaceContext :=
  { config := { id := "wb" }, rag := ragBoom, document_manager := "db", initialized := true }

/-- Initialized workspace "wc" with a healthy engine. -/
def wsC : WorkspaceContext :=
  { config := { id := "wc" }, rag := ragOK, document_manager := "dc", initialized := true }

/-- Witness for C6: in a three-workspace registry where the middle finalize
raises, the last workspace is still finalized exactly once. -/
theorem shutdown_all_complete_sweep_witness :
    ((ofRegisters [wsA, wsB, wsC]).shutdown_all).finalized.count (WorkspaceContext.id wsC)
      = 1 := by
  have h := (shutdown_all_complete_sweep [wsA, wsB, wsC]).2.1 wsC (by decide)
  simpa [wsC] using h

/-! ## Claim C2: aggregate parsing -/

/-- Aggregate parsing exactly as claim C2 describes it: split the raw source
on commas, trim each piece, discard empty pieces, build one minimal config
per remaining piece in input order, then deduplicate by id keeping the first
occurrence. -/
def claimed_aggregate_configs (raw : String) : List WorkspaceConfig :=
  ensure_unique
    ((((pysplit_comma raw).map pystrip).filter (fun s => !(s == ""))).map
      (fun workspace_id => { id := workspace_id }))

/-- The claim-side parse agrees definitionally with the composition of the
source helpers. -/
theorem claimed_aggregate_eq (raw : String) :
    claimed_aggregate_configs raw =
      ensure_unique ((parse_workspace_ids raw).map
        (fun workspace_id => { id := workspace_id })) :=
  rfl

/-- Deduplication keeps a head config whose id was never seen. -/
theorem ensure_unique_cons (c : WorkspaceConfig) (rest : List WorkspaceConfig) :
    ensure_unique (c :: rest) = c :: ensure_unique_go [c.id] rest :=
  rfl

/-- Deduplication of a singleton is the singleton. -/
theorem ensure_unique_singleton (c : WorkspaceConfig) : ensure_unique [c] = [c] :=
  rfl

/-- C2 counterexample: with the aggregate source "," (present and truthy but
parsing to zero ids), the claim predicts the empty config list, but
load_workspace_configs falls through to the single default config. -/
theorem load_workspace_configs_comma_counterexample :
    claimed_aggregate_configs "," = [] ∧
      load_workspace_configs { WORKSPACES := some "," } {} = [{ id := "default" }] ∧
      load_workspace_configs { WORKSPACES := some "," } {} ≠
        claimed_aggregate_configs "," := by
  decide

/-- C2 (amended): whenever the aggregate source parses to at least one
non-empty piece, load_workspace_configs returns exactly the list the claim
describes (split on commas, trimmed, empties discarded, one minimal config
per piece in input order, deduplicated by id keeping the first occurrence);
the input "a, b,,a , c" yields exactly the ids "a", "b", "c" in that order;
when no non-empty piece remains, the single-workspace fallback produces one
config instead. -/
theorem load_workspace_configs_aggregate (raw : String) (envW : Option String) (args : Args)
    (h : parse_workspace_ids raw ≠ []) :
    load_workspace_configs { WORKSPACES := some raw, WORKSPACE := envW } args =
        claimed_aggregate_configs raw ∧
      load_workspace_configs { WORKSPACES := some "a, b,,a , c" } {} =
        [{ id := "a" }, { id := "b" }, { id := "c" }] := by
  refine ⟨?_, by decide⟩
  have hraw : ¬(raw = "") := by
    intro he
    rw [he] at h
    exact h (by decide)
  have ht : truthyOptStr (some raw) = true := by
    simp [truthyOptStr, hraw]
  rw [claimed_aggregate_eq]
  cases hp : parse_workspace_ids raw with
  | nil => exact absurd hp h
  | cons a rest => simp [load_workspace_configs, ht, hp]

/-- Witness for C2 at the concrete aggregate source "a,b". -/
theorem load_workspace_configs_aggregate_witness :
    load_workspace_configs { WORKSPACES := some "a,b" } {} =
      claimed_aggregate_configs "a,b" :=
  (load_workspace_configs_aggregate "a,b" none {} (by decide)).1

/-! ## Claim C3: single-workspace fallback -/

/-- The single workspace id exactly as claim C3 describes it: in priority
order the explicit argument value, then the single-workspace environment
variable (a present-but-empty value counting as absent, as Python truthiness
treats it), then the literal "default"; the chosen value is trimmed, and an
empty trimmed value falls back to "default". -/
def spec_single_id (args : Args) (env : Env) : String :=
  let chosen :=
    if truthyOptStr args.workspace then args.workspace.getD ""
    else if truthyOptStr env.WORKSPACE then env.WORKSPACE.getD ""
    else "default"
  if pystrip chosen == "" then "default" else pystrip chosen

/-- The code's fallback id computation agrees with the claim-side selection. -/
theorem fallback_id_eq (args : Args) (env : Env) :
    (if pystrip (pyOrStr args.workspace (env.WORKSPACE.getD "")) == "" then "default"
      else pystrip (pyOrStr args.workspace (env.WORKSPACE.getD ""))) =
      spec_single_id args env := by
  simp only [spec_single_id]
  cases ha : args.workspace with
  | none =>
    cases he : env.WORKSPACE with
    | none => decide
    | some t =>
      by_cases hts : t = ""
      · subst hts
        decide
      · have hb : (t == "") = false := by simpa using hts
        simp [pyOrStr, truthyOptStr, hb]
  | some s =>
    by_cases hss : s = ""
    · subst hss
      cases he : env.WORKSPACE with
      | none => decide
      | some t =>
        by_cases hts : t = ""
        · subst hts
          decide
        · have hb : (t == "") = false := by simpa using hts
          simp [pyOrStr, truthyOptStr, hb]
    · have hb : (s == "") = false := by simpa using hss
      simp [pyOrStr, truthyOptStr, hb]

/-- When the aggregate source is absent, empty, or parses to zero ids, the
loader returns exactly one config carrying the claim-side fallback id. -/
theorem single_fallback_case (env : Env) (args : Args)
    (hparsed : truthyOptStr env.WORKSPACES = false ∨
      parse_workspace_ids (env.WORKSPACES.getD "") = []) :
    load_workspace_configs env args = [{ id := spec_single_id args env }] := by
  have hemp : (if truthyOptStr env.WORKSPACES = true then
      (parse_workspace_ids (env.WORKSPACES.getD "")).map
        (fun workspace_id => ({ id := workspace_id } : WorkspaceConfig))
    else []) = [] := by
    rcases hparsed with hcase | hcase
    · simp [hcase]
    · simp [hcase]
  have hload : load_workspace_configs env args =
      ensure_unique [({ id :=
        (if pystrip (pyOrStr args.workspace (env.WORKSPACE.getD "")) == "" then "default"
          else pystrip (pyOrStr args.workspace (env.WORKSPACE.getD ""))) } : WorkspaceConfig)] := by
    simp only [load_workspace_configs, hemp, List.isEmpty_nil, if_true]
  rw [hload, ensure_unique_singleton, fallback_id_eq]

/-- C3: load_workspace_configs is total and never returns the empty list;
whenever the aggregate source is absent, empty, or parses to zero ids, it
returns exactly one config whose id is chosen in priority order from the
argument value, then the environment variable, then "default", trimmed, with
an empty trimmed value falling back to "default"; with no sources at all the
result is exactly one config with id "default". -/
theorem load_workspace_configs_fallback (env : Env) (args : Args) :
    load_workspace_configs env args ≠ [] ∧
      ((truthyOptStr env.WORKSPACES = false ∨
          parse_workspace_ids (env.WORKSPACES.getD "") = []) →
        load_workspace_configs env args = [{ id := spec_single_id args env }]) ∧
      load_workspace_configs {} {} = [{ id := "default" }] := by
  refine ⟨?_, single_fallback_case env args, by decide⟩
  by_cases ht : truthyOptStr env.WORKSPACES = true
  · cases hp : parse_workspace_ids (env.WORKSPACES.getD "") with
    | nil =>
      rw [single_fallback_case env args (Or.inr hp)]
      exact List.cons_ne_nil _ _
    | cons a rest =>
      have hload : load_workspace_configs env args =
          ensure_unique (({ id := a } : WorkspaceConfig) ::
            rest.map (fun workspace_id => ({ id := workspace_id } : WorkspaceConfig))) := by
        simp [load_workspace_configs, ht, hp]
      rw [hload, ensure_unique_cons]
      exact List.cons_ne_nil _ _
  · have ht2 : truthyOptStr env.WORKSPACES = false := by
      cases htt : truthyOptStr env.WORKSPACES
      · rfl
      · exact absurd htt ht
    rw [single_fallback_case env args (Or.inl ht2)]
    exact List.cons_ne_nil _ _

/-- Witness for C3 at an unset aggregate source with a set single-workspace
environment variable. -/
theorem load_workspace_configs_fallback_witness :
    load_workspace_configs { WORKSPACE := some "wsx" } { workspace := none } =
      [{ id := spec_single_id { workspace := none } { WORKSPACE := some "wsx" } }] :=
  (load_workspace_configs_fallback { WORKSPACE := some "wsx" } { workspace := none }).2.1
    (Or.inl rfl)
